import Mathlib

set_option maxRecDepth 200000

/-!
Verification of the PSF image analysis engine (`simtools/psf_analysis.py`) and the
camera pixel geometry engine (`simtools/model/camera.py`) of gammasim-tools.

The Python code is shallowly embedded over exact rationals (`ℚ`).  Floating point
arithmetic is idealised as exact rational arithmetic; the floating point square
root is modelled by `fsqrt`, a rational approximation of the real square root
computed by integer Newton iteration at 64 fractional bits.  `fsqrt` is exact on
rationals that are squares of rationals, which all concrete evaluations below are
designed around, and every concrete run below keeps a wide margin between each
compared quantity, so the branches taken agree with the branches an IEEE-754
binary64 execution takes.

Python runtime failures that the code lets escape (`RuntimeError` in
`_findRadiusByScanning`, `ZeroDivisionError` in `_calcFOV`, `ValueError` in
`readPixelList`, the `None` returned by `getPSF` for degree requests without a
focal length) are modelled as values of explicit error types, named after the
error kinds of the specification.
-/

namespace Simtools

/-! ## Integer and rational square root (model of `math.sqrt` / `np.sqrt`) -/

/-- Integer Newton iteration for the floor square root, with explicit fuel so
that it evaluates by kernel reduction.  The iteration is strictly decreasing,
so any fuel at least as large as the starting guess yields the fixpoint. -/
def isqrtAux (n : ℕ) : ℕ → ℕ → ℕ
  | 0, guess => guess
  | fuel + 1, guess =>
    let next := (guess + n / guess) / 2
    if next < guess then isqrtAux n fuel next else guess

/-- Floor square root of a natural number. -/
def isqrt (n : ℕ) : ℕ := if n ≤ 1 then n else isqrtAux n n (n / 2)

/-- Number of fractional bits kept by the rational square root model. -/
def sqrtScaleBits : ℕ := 64

/-- Model of the floating point square root on rationals:
`fsqrt q = ⌊2^64·√q⌋ / 2^64` up to the denominator scaling, hence exact whenever
`q` is the square of a rational, and a 64-fractional-bit under-approximation
otherwise.  Arguments `≤ 0` are mapped to `0` (the code never takes the square
root of a negative quantity on the paths verified here). -/
def fsqrt (q : ℚ) : ℚ :=
  if q ≤ 0 then 0
  else (isqrt (q.num.toNat * q.den * 4 ^ sqrtScaleBits) : ℚ) /
    ((q.den : ℚ) * 2 ^ sqrtScaleBits)

/-- Model of Python `math.fabs` on rationals. -/
def qabs (q : ℚ) : ℚ := if q < 0 then -q else q

/-- Arithmetic mean of a list (`np.mean`); the empty list is mapped to `0`. -/
def meanQ (l : List ℚ) : ℚ := l.sum / l.length

/-! ## PSF image model (`simtools/psf_analysis.py`, class `PSFImage`) -/

/-- State of a `PSFImage` instance.  `hasFocalLength`/`cmToDeg` model the
constructor's focal length handling (`cmToDeg = 180/π/focalLength` is kept
abstract as a field since no verified claim evaluates it), `storedPSF` models
the `_storedPSF` dict, and `totalPhotons`/`totalArea` model the annotation
counters filled during `readSimtelFile`. -/
structure PSFImage where
  photonPosX : List ℚ
  photonPosY : List ℚ
  centroidX : ℚ
  centroidY : ℚ
  numberOfDetectedPhotons : ℕ
  hasFocalLength : Bool
  cmToDeg : ℚ
  storedPSF : List (ℚ × ℚ)
  totalPhotons : ℤ
  totalArea : Option ℚ
  effectiveArea : Option ℚ
deriving DecidableEq

/-- `PSFImage._sumPhotonsInRadius`: the number of photons whose squared distance
from the centroid is strictly below `radius²`. -/
def sumPhotonsInRadius (img : PSFImage) (radius : ℚ) : ℕ :=
  (img.photonPosX.zip img.photonPosY).countP fun p =>
    decide ((p.1 - img.centroidX) ^ 2 + (p.2 - img.centroidY) ^ 2 < radius ^ 2)

/-- The inner `while currentRadius + dr < 0: dr *= 0.5` halving loop of
`_findPSF`, with explicit fuel. -/
def halveDrAux (r : ℚ) : ℕ → ℚ → ℚ
  | 0, dr => dr
  | fuel + 1, dr => if r + dr < 0 then halveDrAux r fuel (dr / 2) else dr

/-- The halving loop of `_findPSF` with fuel `⌈-dr/r⌉ + 1`, which is enough for
the loop to reach its exit condition whenever `0 < r` (the source loop does not
terminate when `r = 0` and `dr < 0`, a state unreachable from the entry point
because a radius of `0` contains no photons, so the step is then nonnegative). -/
def halveDr (r dr : ℚ) : ℚ := halveDrAux r (⌈-dr / r⌉.toNat + 1) dr

/-- The main iteration of `PSFImage._findPSF` (the damped update loop run for at
most `MAX_ITER = 100` rounds).  `some r` is the converged radius, `none` means
the 100 rounds were exhausted and the caller falls back to scanning. -/
def psfLoop (img : PSFImage) (targetNumber tolerance scale sqrtTarget : ℚ) :
    ℕ → ℚ → ℚ → Option ℚ
  | 0, _, _ => none
  | nIter + 1, currentRadius, deltaNumber =>
    let dr := halveDr currentRadius (-deltaNumber * scale / sqrtTarget)
    let r' := currentRadius + dr
    let currentNumber : ℚ := sumPhotonsInRadius img r'
    let delta' := currentNumber - targetNumber
    if qabs delta' < tolerance then some r'
    else psfLoop img targetNumber tolerance scale sqrtTarget nIter r' delta'

/-- The photon position spread `radiusSig` computed at the top of
`PSFImage._findPSF` (population sigmas of the two coordinates, combined by a
Euclidean norm). -/
def radiusSigOf (img : PSFImage) : ℚ :=
  let xPosSig := fsqrt (meanQ (img.photonPosX.map fun i => i ^ 2) - img.centroidX ^ 2)
  let yPosSig := fsqrt (meanQ (img.photonPosY.map fun i => i ^ 2) - img.centroidY ^ 2)
  fsqrt (xPosSig ^ 2 + yPosSig ^ 2)

/-- The iterative stage of `PSFImage._findPSF`: set up `targetNumber`,
`currentRadius = 1.5·radiusSig`, `SCALE`, `TOLERANCE = N/1000` and run the
damped loop for 100 rounds. -/
def findPSFIter (img : PSFImage) (fraction : ℚ) : Option ℚ :=
  let radiusSig := radiusSigOf img
  let targetNumber := fraction * img.numberOfDetectedPhotons
  let currentRadius := 3 / 2 * radiusSig
  let startNumber : ℚ := sumPhotonsInRadius img currentRadius
  let scale := 1 / 2 * fsqrt (currentRadius * currentRadius / startNumber)
  psfLoop img targetNumber ((img.numberOfDetectedPhotons : ℚ) / 1000) scale
    (fsqrt targetNumber) 100 currentRadius (startNumber - targetNumber)

/-- Error kinds of the PSF engine (specification §7).  `psfNotFound` models the
bare `RuntimeError` raised by `_findRadiusByScanning`, `noFocalLengthConfigured`
models the `None` returned (with a logged error) by `getPSF` when degree output
is requested without a configured focal length. -/
inductive PSFError where
  | psfNotFound
  | noFocalLengthConfigured
deriving DecidableEq

/-- The scanning loop `scan` nested in `PSFImage._findRadiusByScanning`: advance
a window `[r0, r1]` by `dr` until it brackets `targetNumber` or `r1` exceeds
`radMax`.  The fuel passed by `scanRun` always exceeds the number of steps the
source loop can take before one of its two exits fires (for `dr > 0`). -/
def scanLoop (img : PSFImage) (targetNumber dr radMax : ℚ) :
    ℕ → ℚ → ℚ → Option (ℚ × ℚ × ℚ)
  | 0, _, _ => none
  | fuel + 1, r0, r1 =>
    let s0 : ℚ := sumPhotonsInRadius img r0
    let s1 : ℚ := sumPhotonsInRadius img r1
    if s0 < targetNumber ∧ s1 > targetNumber then some ((r0 + r1) / 2, r0, r1)
    else if r1 > radMax then none
    else scanLoop img targetNumber dr radMax fuel (r0 + dr) (r1 + dr)

/-- Fuel bound for `scanLoop`: one step per `dr`-advance that fits between
`radMin` and `radMax`, plus slack for the two boundary iterations. -/
def scanFuel (dr radMin radMax : ℚ) : ℕ := (⌈(radMax - radMin) / dr⌉ + 2).toNat

/-- One invocation of the nested `scan(dr, radMin, radMax)` of
`_findRadiusByScanning`, starting from the window `[radMin, radMin + dr]`. -/
def scanRun (img : PSFImage) (targetNumber dr radMin radMax : ℚ) :
    Option (ℚ × ℚ × ℚ) :=
  scanLoop img targetNumber dr radMax (scanFuel dr radMin radMax) radMin (radMin + dr)

/-- `PSFImage._findRadiusByScanning`: a coarse scan with step `0.1·radiusSig`
over `[0, 4·radiusSig]`, refined with step `0.005·radiusSig` over the found
bracket; the midpoint of the refined bracket is returned.  A failed scan is the
`PSFNotFound` error (`RuntimeError` in the source). -/
def findRadiusByScanning (img : PSFImage) (targetNumber radiusSig : ℚ) :
    Except PSFError ℚ :=
  match scanRun img targetNumber (1 / 10 * radiusSig) 0 (4 * radiusSig) with
  | none => .error .psfNotFound
  | some (_, radMin, radMax) =>
    match scanRun img targetNumber (1 / 200 * radiusSig) radMin radMax with
    | none => .error .psfNotFound
    | some (radius, _, _) => .ok radius

/-- `PSFImage._findPSF`: the converged iterative stage returns the diameter
`2·currentRadius`; otherwise the scanning fallback result (a bracket midpoint
radius) is returned as is. -/
def findPSF (img : PSFImage) (fraction : ℚ) : Except PSFError ℚ :=
  match findPSFIter img fraction with
  | some r => .ok (2 * r)
  | none =>
    findRadiusByScanning img (fraction * img.numberOfDetectedPhotons) (radiusSigOf img)

/-- The `unit` argument of `PSFImage.getPSF`. -/
inductive PSFUnit where
  | cm
  | deg
deriving DecidableEq

/-- `PSFImage.getPSF`: degree output without a focal length is rejected up
front; otherwise the per-fraction cache is consulted and `_findPSF` is invoked
on a miss.  The cache write performed by `_computePSF` only affects later calls
and is modelled by the `storedPSF` field of the input state. -/
def getPSF (img : PSFImage) (fraction : ℚ) (unit : PSFUnit) : Except PSFError ℚ :=
  if unit = .deg ∧ img.hasFocalLength = false then .error .noFocalLengthConfigured
  else
    let unitFactor : ℚ := match unit with | .cm => 1 | .deg => img.cmToDeg
    match (img.storedPSF.find? fun p => decide (p.1 = fraction)).map Prod.snd with
    | some v => .ok (v * unitFactor)
    | none => (findPSF img fraction).map (· * unitFactor)

/-- The state of a `PSFImage` directly after a successful `readSimtelFile`: the
centroid is the coordinate mean, the detected photon count is the list length,
the two position lists are nonempty and of equal length and no PSF has been
cached yet. -/
def Ingested (img : PSFImage) : Prop :=
  img.photonPosX ≠ [] ∧
  img.photonPosX.length = img.photonPosY.length ∧
  img.numberOfDetectedPhotons = img.photonPosX.length ∧
  img.centroidX = meanQ img.photonPosX ∧
  img.centroidY = meanQ img.photonPosY ∧
  img.storedPSF = []

instance (img : PSFImage) : Decidable (Ingested img) := by
  unfold Ingested; infer_instance

/-- Build the `PSFImage` state a successful ingestion of the given photon
positions produces (no focal length configured, empty PSF cache). -/
def mkImage (ps : List (ℚ × ℚ)) : PSFImage :=
  { photonPosX := ps.map Prod.fst
    photonPosY := ps.map Prod.snd
    centroidX := meanQ (ps.map Prod.fst)
    centroidY := meanQ (ps.map Prod.snd)
    numberOfDetectedPhotons := ps.length
    hasFocalLength := false
    cmToDeg := 0
    storedPSF := []
    totalPhotons := 0
    totalArea := none
    effectiveArea := none }

/-- The round-trip property claimed by the specification, written as a checker:
the value solved by `getPSF` for `fraction` (in cm), evaluated by
`countWithin`, is within `detectedPhotonCount/1000` of
`fraction × detectedPhotonCount`. -/
def roundTripHolds (img : PSFImage) (fraction : ℚ) : Bool :=
  match getPSF img fraction .cm with
  | .ok v =>
    decide (qabs ((sumPhotonsInRadius img v : ℚ) -
      fraction * img.numberOfDetectedPhotons) <
      (img.numberOfDetectedPhotons : ℚ) / 1000)
  | .error _ => false

/-- Four photons on the circle of radius 5 around the origin. -/
def image1 : PSFImage := mkImage [(3, 4), (3, -4), (-3, 4), (-3, -4)]

/-- Four photons at distance 5 and four photons at distance 10 from the
origin. -/
def image2 : PSFImage :=
  mkImage [(3, 4), (3, -4), (-3, 4), (-3, -4), (6, 8), (6, -8), (-6, 8), (-6, -8)]

/-- Thirty-five photons at the origin and a single outlier at `(36, 0)`: all
photons sit at distance 1 from the centroid `(1, 0)` except the outlier at
distance 35. -/
def image3 : PSFImage := mkImage (List.replicate 35 ((0 : ℚ), (0 : ℚ)) ++ [(36, 0)])

/-! ## Photon list file parsing (`PSFImage.readSimtelFile` and helpers) -/

/-- Digit value of a character, `none` on non-digits. -/
def digitVal (c : Char) : Option ℕ :=
  if '0' ≤ c ∧ c ≤ '9' then some (c.toNat - '0'.toNat) else none

/-- Accumulate a decimal digit string; `none` if any non-digit occurs. -/
def parseNatAux : List Char → ℕ → Option ℕ
  | [], acc => some acc
  | c :: cs, acc =>
    match digitVal c with
    | some d => parseNatAux cs (acc * 10 + d)
    | none => none

/-- A nonempty decimal digit string as a natural number. -/
def parseNatDigits (l : List Char) : Option ℕ :=
  match l with
  | [] => none
  | _ => parseNatAux l 0

/-- Model of Python `int(token)` on the decimal integers that occur in photon
list files (an optional sign followed by digits). -/
def parseInt (l : List Char) : Option ℤ :=
  match l with
  | '-' :: rest => (parseNatDigits rest).map fun n => -(n : ℤ)
  | '+' :: rest => (parseNatDigits rest).map fun n => (n : ℤ)
  | _ => (parseNatDigits l).map fun n => (n : ℤ)

/-- Model of Python `float(token)` on the plain decimal literals that occur in
photon list files (optional sign, digits, optional point and fraction digits). -/
def parseRat (l : List Char) : Option ℚ :=
  let signed : ℚ × List Char :=
    match l with
    | '-' :: rest => (-1, rest)
    | '+' :: rest => (1, rest)
    | _ => (1, l)
  let intPart := signed.2.takeWhile fun c => c ≠ '.'
  match signed.2.dropWhile fun c => c ≠ '.' with
  | [] => (parseNatDigits intPart).map fun n => signed.1 * n
  | _ :: fracPart =>
    if intPart = [] ∧ fracPart = [] then none
    else
      match parseNatAux intPart 0, parseNatAux fracPart 0 with
      | some i, some f =>
        some (signed.1 * ((i : ℚ) + (f : ℚ) / 10 ^ fracPart.length))
      | _, _ => none

/-- Python `str.split()`: split on runs of whitespace, dropping empty pieces. -/
def splitWSAux : List Char → List Char → List (List Char)
  | [], acc => if acc = [] then [] else [acc.reverse]
  | c :: cs, acc =>
    if c = ' ' ∨ c = '\t' ∨ c = '\n' ∨ c = '\r' then
      if acc = [] then splitWSAux cs [] else acc.reverse :: splitWSAux cs []
    else splitWSAux cs (c :: acc)

/-- Python `line.split()` on a line given as a character list. -/
def splitWS (l : List Char) : List (List Char) := splitWSAux l []

/-- Whether `pat` occurs at the head of `l`. -/
def leadsWith : List Char → List Char → Bool
  | [], _ => true
  | _ :: _, [] => false
  | p :: ps, c :: cs => p = c && leadsWith ps cs

/-- Python `pat in line`: whether `pat` occurs contiguously anywhere in `l`. -/
def containsSeq (pat : List Char) : List Char → Bool
  | [] => leadsWith pat []
  | c :: cs => leadsWith pat (c :: cs) || containsSeq pat cs

/-- The annotation marker phrase looked for by `_processSimtelLine`. -/
def fallingPhrase : List Char := "falling on an area of".data

/-- Errors of the photon list ingestion.  `emptyOrMismatchedPhotonData` is the
`RuntimeError` of `readSimtelFile`; `malformedLine` stands for the
`IndexError`/`ValueError` Python raises out of `_processSimtelLine` when a
needed token is missing or fails numeric conversion. -/
inductive SimtelError where
  | emptyOrMismatchedPhotonData
  | malformedLine
deriving DecidableEq

/-- `PSFImage._processSimtelLine`: annotation lines (containing the marker
phrase) accumulate the emitted photon count (token 4) and set the scattering
area (token 14) if it is not yet set, keeping the first value on conflicts
(warning only in the source); lines containing `'#'` anywhere, and blank lines,
are skipped; every other line appends tokens 2 and 3 as a photon position.
The source appends the x token before parsing the y token, so a y conversion
failure leaves the lists mismatched while the exception propagates; here the
failing line produces an error and no state, which agrees with the source on
every run in which all lines parse. -/
def processSimtelLine (img : PSFImage) (line : List Char) :
    Except SimtelError PSFImage :=
  let words := splitWS line
  if containsSeq fallingPhrase line then
    match (words.get? 4).bind parseInt, (words.get? 14).bind parseRat with
    | some n, some totalAreaInFile =>
      .ok { img with
        totalPhotons := img.totalPhotons + n
        totalArea :=
          match img.totalArea with
          | none => some totalAreaInFile
          | some t => some t }
    | _, _ => .error .malformedLine
  else if '#' ∈ line ∨ words.length = 0 then .ok img
  else
    match (words.get? 2).bind parseRat, (words.get? 3).bind parseRat with
    | some x, some y =>
      .ok { img with
        photonPosX := img.photonPosX ++ [x]
        photonPosY := img.photonPosY ++ [y] }
    | _, _ => .error .malformedLine

/-- The line loop of `readSimtelFile`. -/
def processLines (img : PSFImage) : List (List Char) → Except SimtelError PSFImage
  | [] => .ok img
  | l :: ls =>
    match processSimtelLine img l with
    | .ok img' => processLines img' ls
    | .error e => .error e

/-- `PSFImage._isPhotonPositionsOK`. -/
def isPhotonPositionsOK (img : PSFImage) : Bool :=
  decide (img.photonPosX.length ≠ 0) && decide (img.photonPosY.length ≠ 0) &&
    decide (img.photonPosX.length = img.photonPosY.length)

/-- `PSFImage.readSimtelFile` on an already-read list of lines: reset
`_totalPhotons` (the photon position lists are *not* reset), process every
line, fail with `EmptyOrMismatchedPhotonData` if the position lists are empty
or of unequal length, otherwise record centroid, detected photon count and
effective area. -/
def readSimtelLines (img0 : PSFImage) (lines : List (List Char)) :
    Except SimtelError PSFImage :=
  match processLines { img0 with totalPhotons := 0 } lines with
  | .error e => .error e
  | .ok img =>
    if isPhotonPositionsOK img then
      .ok { img with
        centroidX := meanQ img.photonPosX
        centroidY := meanQ img.photonPosY
        numberOfDetectedPhotons := img.photonPosX.length
        effectiveArea := img.totalArea.map fun a =>
          (img.photonPosX.length : ℚ) * a / (img.totalPhotons : ℚ) }
    else .error .emptyOrMismatchedPhotonData

/-- A `PSFImage` state whose position lists are mismatched (one longer), as the
source leaves behind when a photon line's y token fails conversion after the x
token was appended. -/
def mismatchedImage : PSFImage :=
  { photonPosX := [1]
    photonPosY := []
    centroidX := 0
    centroidY := 0
    numberOfDetectedPhotons := 0
    hasFocalLength := false
    cmToDeg := 0
    storedPSF := []
    totalPhotons := 0
    totalArea := none
    effectiveArea := none }

/-! ## Camera pixel geometry model (`simtools/model/camera.py`, class `Camera`) -/

/-- Error kinds of the camera engine (specification §7).  The two
`malformedLayout` variants are the two `ValueError`s of `readPixelList`,
`emptyEdgeSet` is the `ZeroDivisionError` of `_calcFOV` on an empty edge list,
`invalidFocalLength` is the constructor's `ValueError` for focal length `≤ 0`. -/
inductive CameraError where
  | malformedLayoutDiameter
  | malformedLayoutShape
  | emptyEdgeSet
  | invalidFocalLength
deriving DecidableEq

/-- One line of a camera configuration file, with the token accesses of
`readPixelList` already carried out: a `PixType` line supplies shape (token 5),
diameter (token 6) and the lightguide efficiency file names (tokens 8 and, when
present, 9); a `Rotate` line supplies the angle (token 1); a `Pixel` line
supplies id (token 1), position (tokens 3, 4) and the optional on/off flag
(token 9); every other line is ignored. -/
inductive CfgLine where
  | pixType (shape : ℤ) (diameter : ℚ) (angleFile : List Char)
      (wavelengthFile : Option (List Char))
  | rotateLine (angleDeg : ℚ)
  | pixel (id : ℤ) (x y : ℚ) (onFlag : Option ℤ)
  | other
deriving DecidableEq

/-- The `pixels` dictionary built by `Camera.readPixelList`.  `rotateAngle` is
kept in the unit it was parsed in (the source multiplies by `π/180`; no claim
verified here depends on the stored angle). -/
structure Pixels where
  pixelDiameter : ℚ
  pixelShape : ℤ
  pixelSpacing : ℚ
  lightguideEfficiencyAngleFile : List Char
  lightguideEfficiencyWavelengthFile : List Char
  rotateAngle : ℚ
  x : List ℚ
  y : List ℚ
  pixID : List ℤ
  pixOn : List Bool
deriving DecidableEq

/-- The initial `pixels` dictionary of `readPixelList`, with `9999` as the
"unset" sentinel for diameter, shape and spacing. -/
def initPixels : Pixels :=
  { pixelDiameter := 9999
    pixelShape := 9999
    pixelSpacing := 9999
    lightguideEfficiencyAngleFile := "none".data
    lightguideEfficiencyWavelengthFile := "none".data
    rotateAngle := 0
    x := []
    y := []
    pixID := []
    pixOn := [] }

/-- The body of the line loop of `readPixelList`. -/
def processPixelLine (p : Pixels) : CfgLine → Pixels
  | .pixType shape diameter angleFile wavelengthFile =>
    { p with
      pixelShape := shape
      pixelDiameter := diameter
      lightguideEfficiencyAngleFile := angleFile
      lightguideEfficiencyWavelengthFile :=
        wavelengthFile.getD p.lightguideEfficiencyWavelengthFile }
  | .rotateLine angleDeg => { p with rotateAngle := angleDeg }
  | .pixel id x y onFlag =>
    { p with
      x := p.x ++ [x]
      y := p.y ++ [y]
      pixID := p.pixID ++ [id]
      pixOn := p.pixOn ++ [match onFlag with | some v => decide (v ≠ 0) | none => true] }
  | .other => p

/-- `Camera.readPixelList`: process every line, then fail if the diameter still
holds the sentinel `9999` or the shape is not one of `1`, `2`, `3`. -/
def readPixelList (lines : List CfgLine) : Except CameraError Pixels :=
  let p := lines.foldl processPixelLine initPixels
  if p.pixelDiameter = 9999 then .error .malformedLayoutDiameter
  else if p.pixelShape ≠ 1 ∧ p.pixelShape ≠ 2 ∧ p.pixelShape ≠ 3 then
    .error .malformedLayoutShape
  else .ok p

/-- `Camera.PMT_NEIGHBOR_RADIUS_FACTOR`. -/
def pmtNeighborRadiusFactor : ℚ := 11 / 10

/-- `Camera.SIPM_NEIGHBOR_RADIUS_FACTOR`. -/
def sipmNeighborRadiusFactor : ℚ := 7 / 5

/-- `Camera.SIPM_ROW_COLUMN_DIST_FACTOR`. -/
def sipmRowColumnDistFactor : ℚ := 1 / 5

/-- `Camera._findNeighbours`: for each pixel, the indices returned by the
KD-tree ball query of radius `radius` (a closed ball, expressed here by the
equivalent squared-distance comparison, the two being the same set for
`radius ≥ 0`), with the pixel's own index removed. -/
def findNeighbours (xPos yPos : List ℚ) (radius : ℚ) : List (List ℕ) :=
  (List.range xPos.length).map fun i =>
    (List.range xPos.length).filter fun j =>
      decide (j ≠ i ∧
        (xPos.getD j 0 - xPos.getD i 0) ^ 2 + (yPos.getD j 0 - yPos.getD i 0) ^ 2 ≤
          radius ^ 2)

/-- `Camera._findAdjacentNeighbourPixels`: the base neighbours, and for pixels
with fewer than 4 of them a second pass appending every other pixel that is not
yet a neighbour, sits in the same row or column (coordinate difference below
`rowColumnDist`) and is closer than `1.2·radius`.  The source mutates each
pixel's own list while scanning `j` in increasing order, which appends exactly
the pixels appended here, in the same order. -/
def findAdjacentNeighbourPixels (xPos yPos : List ℚ) (radius rowColumnDist : ℚ) :
    List (List ℕ) :=
  (findNeighbours xPos yPos radius).enum.map fun inn =>
    if inn.2.length < 4 then
      inn.2 ++ (List.range xPos.length).filter fun jPix =>
        decide (jPix ≠ inn.1 ∧ jPix ∉ inn.2 ∧
          (qabs (xPos.getD inn.1 0 - xPos.getD jPix 0) < rowColumnDist ∨
            qabs (yPos.getD inn.1 0 - yPos.getD jPix 0) < rowColumnDist) ∧
          (xPos.getD inn.1 0 - xPos.getD jPix 0) ^ 2 +
            (yPos.getD inn.1 0 - yPos.getD jPix 0) ^ 2 < (6 / 5 * radius) ^ 2)
    else inn.2

/-- `Camera._calcNeighbourPixels`: hexagonal shapes (1 and 3) use the plain
ball query with radius `1.1·diameter`; square shape (2) uses the two-pass
search with radius `1.4·diameter` and row/column tolerance `0.2·diameter`.
Any other shape never reaches this method (`readPixelList` validates the shape;
the source would stop with an unbound local). -/
def calcNeighbourPixels (pixels : Pixels) : List (List ℕ) :=
  if pixels.pixelShape = 1 ∨ pixels.pixelShape = 3 then
    findNeighbours pixels.x pixels.y (pmtNeighborRadiusFactor * pixels.pixelDiameter)
  else if pixels.pixelShape = 2 then
    findAdjacentNeighbourPixels pixels.x pixels.y
      (sipmNeighborRadiusFactor * pixels.pixelDiameter)
      (sipmRowColumnDistFactor * pixels.pixelDiameter)
  else []

/-- `Camera._calcEdgePixels`: a pixel index is collected iff its pixel is on
and its neighbour count is below 6 (hexagonal shapes) resp. 4 (square shape). -/
def calcEdgePixels (pixels : Pixels) (neighbours : List (List ℕ)) : List ℕ :=
  (List.range (min pixels.x.length pixels.y.length)).filter fun iPix =>
    if pixels.pixelShape = 1 ∨ pixels.pixelShape = 3 then
      decide (pixels.pixOn.getD iPix false = true ∧ (neighbours.getD iPix []).length < 6)
    else if pixels.pixelShape = 2 then
      decide (pixels.pixOn.getD iPix false = true ∧ (neighbours.getD iPix []).length < 4)
    else false

/-- `Camera._calcFOV`.  The empty edge list is the `ZeroDivisionError` of the
source (`EmptyEdgeSet` in the specification).  The composite
`2·rad2deg(arctan(·))` applied to `avg/focalLength` is kept abstract as the
function argument `atanDeg`, since its value is irrational; the error/success
split decided here happens before it is applied. -/
def calcFOV (xPixel yPixel : List ℚ) (edgePixelIndices : List ℕ)
    (focalLength : ℚ) (atanDeg : ℚ → ℚ) : Except CameraError (ℚ × ℚ) :=
  if edgePixelIndices.length = 0 then .error .emptyEdgeSet
  else
    let averageEdgeDistance :=
      (edgePixelIndices.map fun iPix =>
        fsqrt ((xPixel.getD iPix 0) ^ 2 + (yPixel.getD iPix 0) ^ 2)).sum /
        (edgePixelIndices.length : ℚ)
    .ok (2 * atanDeg (averageEdgeDistance / focalLength), averageEdgeDistance)

/-- State of a `Camera` instance: the parsed pixels and the two lazily-intended
caches `_neighbours` and `_edgePixelIndices`, both `None` after construction. -/
structure Camera where
  pixels : Pixels
  neighbours : Option (List (List ℕ))
  edgePixelIndices : Option (List ℕ)
  focalLength : ℚ
deriving DecidableEq

/-- `Camera.getNeighbourPixels` as a state transformer: on a `None` cache the
source computes `_calcNeighbourPixels(pixels)` and returns it *without storing
it*, so the instance is returned unchanged; on a set cache the stored value is
returned. -/
def getNeighbourPixels (camera : Camera) (pixelsArg : Option Pixels) :
    List (List ℕ) × Camera :=
  match camera.neighbours with
  | none => (calcNeighbourPixels (pixelsArg.getD camera.pixels), camera)
  | some nb => (nb, camera)

/-- `Camera.getEdgePixels` as a state transformer: on a `None` cache the source
computes `_calcEdgePixels` from the (defaulted) arguments and returns it
*without storing it*. -/
def getEdgePixels (camera : Camera) (pixelsArg : Option Pixels)
    (neighboursArg : Option (List (List ℕ))) : List ℕ × Camera :=
  match camera.edgePixelIndices with
  | none =>
    let p := pixelsArg.getD camera.pixels
    let nb := neighboursArg.getD (getNeighbourPixels camera none).1
    (calcEdgePixels p nb, camera)
  | some e => (e, camera)

/-- The three-pixel hexagonal scenario layout of the specification: pixels at
`(0,0)`, `(1,0)`, `(0,1)`, diameter 1, shape 1, all on. -/
def pixels3 : Pixels :=
  { initPixels with
    pixelShape := 1
    pixelDiameter := 1
    x := [0, 1, 0]
    y := [0, 0, 1]
    pixID := [1, 2, 3]
    pixOn := [true, true, true] }

end Simtools

namespace Simtools

/-- Whether a configuration line's `PixType` record (if it is one) declares the
sentinel diameter value `9999`. -/
def cfgDiameterIs9999 : CfgLine → Prop
  | .pixType _ d _ _ => d = 9999
  | _ => True

instance (l : CfgLine) : Decidable (cfgDiameterIs9999 l) := by
  cases l <;> unfold cfgDiameterIs9999 <;> infer_instance

end Simtools

deriving instance DecidableEq for Except

namespace Simtools

/-! ## Helper lemmas about the PSF solver -/

theorem fsqrt_nonneg (q : ℚ) : 0 ≤ fsqrt q := by
  unfold fsqrt
  split
  · exact le_refl 0
  · positivity

theorem radiusSigOf_nonneg (img : PSFImage) : 0 ≤ radiusSigOf img := by
  unfold radiusSigOf
  exact fsqrt_nonneg _

theorem sumPhotonsInRadius_zero_radius (img : PSFImage) :
    sumPhotonsInRadius img 0 = 0 := by
  unfold sumPhotonsInRadius
  rw [List.countP_eq_zero]
  intro p _
  simp only [decide_eq_true_eq]
  intro hlt
  nlinarith [sq_nonneg (p.1 - img.centroidX), sq_nonneg (p.2 - img.centroidY)]

theorem sumPhotonsInRadius_mono (img : PSFImage) {r r' : ℚ} (hr : 0 ≤ r)
    (hrr : r ≤ r') : sumPhotonsInRadius img r ≤ sumPhotonsInRadius img r' := by
  unfold sumPhotonsInRadius
  apply List.countP_mono_left
  intro p _ hp
  simp only [decide_eq_true_eq] at hp ⊢
  have h2 : r ^ 2 ≤ r' ^ 2 := pow_le_pow_left₀ hr hrr 2
  linarith

theorem sumPhotonsInRadius_le (img : PSFImage)
    (hlen : img.photonPosX.length = img.photonPosY.length) (r : ℚ) :
    sumPhotonsInRadius img r ≤ img.photonPosX.length := by
  unfold sumPhotonsInRadius
  calc (img.photonPosX.zip img.photonPosY).countP _ ≤
      (img.photonPosX.zip img.photonPosY).length := List.countP_le_length _
    _ = img.photonPosX.length := by rw [List.length_zip, hlen, min_self]

theorem halveDrAux_nonneg (r : ℚ) (hr : 0 < r) :
    ∀ fuel (dr : ℚ), 0 ≤ 2 ^ fuel * r + dr → 0 ≤ r + halveDrAux r fuel dr
  | 0, dr, h => by
    unfold halveDrAux
    simpa using h
  | fuel + 1, dr, h => by
    unfold halveDrAux
    split
    · apply halveDrAux_nonneg r hr fuel (dr / 2)
      have h2 : (2 : ℚ) ^ (fuel + 1) = 2 * 2 ^ fuel := by ring
      rw [h2] at h
      linarith
    · rename_i hcond
      linarith [not_lt.mp hcond]

theorem halveDr_nonneg (r dr : ℚ) (hr : 0 ≤ r) (h : 0 < r ∨ 0 ≤ dr) :
    0 ≤ r + halveDr r dr := by
  rcases le_or_lt 0 (r + dr) with h0 | h0
  · rw [halveDr]
    rw [halveDrAux]
    rw [if_neg (not_lt.mpr h0)]
    exact h0
  · rcases h with hpos | hdr
    · rw [halveDr]
      apply halveDrAux_nonneg r hpos
      set t := (⌈-dr / r⌉).toNat with ht
      have hx : -dr / r ≤ (t : ℚ) := by
        calc -dr / r ≤ ((⌈-dr / r⌉ : ℤ) : ℚ) := Int.le_ceil _
          _ ≤ ((t : ℤ) : ℚ) := by
            exact_mod_cast Int.self_le_toNat _
      have hdiv : -dr ≤ (t : ℚ) * r := by
        rw [div_le_iff₀ hpos] at hx
        linarith
      have hpow : (t : ℚ) < 2 ^ (t + 1) := by
        calc (t : ℚ) < ((2 ^ t : ℕ) : ℚ) := by exact_mod_cast Nat.lt_two_pow t
          _ ≤ 2 ^ (t + 1) := by
            rw [Nat.cast_pow]
            norm_num
            exact pow_le_pow_right₀ (by norm_num) (Nat.le_succ t)
      nlinarith
    · linarith

theorem halveDr_id (r dr : ℚ) (h : 0 ≤ r + dr) : halveDr r dr = dr := by
  rw [halveDr, halveDrAux, if_neg (not_lt.mpr h)]

end Simtools

namespace Simtools

theorem psfLoop_tol (img : PSFImage) (target tol scale sqrtT : ℚ) :
    ∀ fuel (r δ r' : ℚ),
      psfLoop img target tol scale sqrtT fuel r δ = some r' →
      qabs ((sumPhotonsInRadius img r' : ℚ) - target) < tol
  | 0, r, δ, r', h => by simp [psfLoop] at h
  | fuel + 1, r, δ, r', h => by
    rw [psfLoop] at h
    split at h
    · rename_i hcond
      rw [Option.some.injEq] at h
      subst h
      exact hcond
    · exact psfLoop_tol img target tol scale sqrtT fuel _ _ r' h

theorem psfLoop_nonneg (img : PSFImage) (target tol scale sqrtT : ℚ)
    (hscale : 0 ≤ scale) (hsqrtT : 0 ≤ sqrtT) (htarget : 0 < target) :
    ∀ fuel (r δ r' : ℚ), 0 ≤ r →
      δ = (sumPhotonsInRadius img r : ℚ) - target →
      psfLoop img target tol scale sqrtT fuel r δ = some r' → 0 ≤ r'
  | 0, r, δ, r', hr, hδ, h => by simp [psfLoop] at h
  | fuel + 1, r, δ, r', hr, hδ, h => by
    rw [psfLoop] at h
    have hstep : 0 ≤ r + halveDr r (-δ * scale / sqrtT) := by
      rcases eq_or_lt_of_le hr with hr0 | hrpos
      · apply halveDr_nonneg r _ hr (Or.inr _)
        have hc : (sumPhotonsInRadius img r : ℚ) = 0 := by
          rw [← hr0, sumPhotonsInRadius_zero_radius]
          norm_num
        have hδ' : δ = -target := by rw [hδ, hc]; ring
        rw [hδ']
        have : (0 : ℚ) ≤ target * scale := mul_nonneg (le_of_lt htarget) hscale
        have : (0 : ℚ) ≤ target * scale / sqrtT := div_nonneg this hsqrtT
        calc (0 : ℚ) ≤ target * scale / sqrtT := this
          _ = - -target * scale / sqrtT := by ring
      · exact halveDr_nonneg r _ hr (Or.inl hrpos)
    split at h
    · rw [Option.some.injEq] at h
      subst h
      exact hstep
    · exact psfLoop_nonneg img target tol scale sqrtT hscale hsqrtT htarget fuel _ _ r'
        hstep rfl h

theorem psfLoop_ge (img : PSFImage) (target tol scale sqrtT : ℚ)
    (hscale : 0 ≤ scale) (hsqrtT : 0 ≤ sqrtT)
    (hcount : ∀ rr : ℚ, (sumPhotonsInRadius img rr : ℚ) ≤ target) :
    ∀ fuel (r δ r' : ℚ), 0 ≤ r →
      δ = (sumPhotonsInRadius img r : ℚ) - target →
      psfLoop img target tol scale sqrtT fuel r δ = some r' → r ≤ r'
  | 0, r, δ, r', hr, hδ, h => by simp [psfLoop] at h
  | fuel + 1, r, δ, r', hr, hδ, h => by
    rw [psfLoop] at h
    have hδle : δ ≤ 0 := by
      rw [hδ]
      linarith [hcount r]
    have hdr : 0 ≤ -δ * scale / sqrtT :=
      div_nonneg (mul_nonneg (by linarith) hscale) hsqrtT
    rw [halveDr_id r _ (by linarith)] at h
    split at h
    · rw [Option.some.injEq] at h
      subst h
      linarith
    · have := psfLoop_ge img target tol scale sqrtT hscale hsqrtT hcount fuel _ _ r'
        (by linarith) rfl h
      linarith

end Simtools

namespace Simtools

theorem scanLoop_none (img : PSFImage) (target dr radMax : ℚ)
    (hcount : ∀ rr : ℚ, (sumPhotonsInRadius img rr : ℚ) ≤ target) :
    ∀ fuel (r0 r1 : ℚ), scanLoop img target dr radMax fuel r0 r1 = none
  | 0, _, _ => rfl
  | fuel + 1, r0, r1 => by
    rw [scanLoop]
    rw [if_neg]
    · split
      · rfl
      · exact scanLoop_none img target dr radMax hcount fuel _ _
    · rintro ⟨_, h1⟩
      exact absurd h1 (not_lt.mpr (hcount r1))

theorem scanLoop_some_inv (img : PSFImage) (target dr radMax : ℚ) (hdr : 0 ≤ dr) :
    ∀ fuel (r0 r1 m a b : ℚ), 0 ≤ r0 → r1 = r0 + dr →
      scanLoop img target dr radMax fuel r0 r1 = some (m, a, b) →
      0 ≤ a ∧ b = a + dr ∧ m = (a + b) / 2 ∧
        (sumPhotonsInRadius img a : ℚ) < target ∧
        target < (sumPhotonsInRadius img b : ℚ)
  | 0, r0, r1, m, a, b, hr0, hr1, h => by simp [scanLoop] at h
  | fuel + 1, r0, r1, m, a, b, hr0, hr1, h => by
    rw [scanLoop] at h
    split at h
    · rename_i hcond
      rw [Option.some.injEq, Prod.mk.injEq, Prod.mk.injEq] at h
      obtain ⟨hm, ha, hb⟩ := h
      subst hm; subst ha; subst hb
      exact ⟨hr0, hr1, rfl, hcond.1, hcond.2⟩
    · split at h
      · exact absurd h (by simp)
      · exact scanLoop_some_inv img target dr radMax hdr fuel (r0 + dr) (r1 + dr) m a b
          (by linarith) (by rw [hr1]) h

theorem findRadiusByScanning_err (img : PSFImage) (target radiusSig : ℚ)
    (hcount : ∀ rr : ℚ, (sumPhotonsInRadius img rr : ℚ) ≤ target) :
    findRadiusByScanning img target radiusSig = .error .psfNotFound := by
  unfold findRadiusByScanning scanRun
  rw [scanLoop_none img target _ _ hcount]

theorem findRadiusByScanning_ok_inv (img : PSFImage) (target radiusSig v : ℚ)
    (hsig : 0 ≤ radiusSig)
    (h : findRadiusByScanning img target radiusSig = .ok v) :
    ∃ a : ℚ, 0 ≤ a ∧ (sumPhotonsInRadius img a : ℚ) < target ∧
      v = a + 1 / 200 * radiusSig / 2 := by
  unfold findRadiusByScanning at h
  split at h
  · exact absurd h (by simp)
  · rename_i x radMin radMax h0
    split at h
    · exact absurd h (by simp)
    · rename_i radius a b h1
      rw [Except.ok.injEq] at h
      subst h
      have hdr0 : (0 : ℚ) ≤ 1 / 10 * radiusSig := by linarith
      have hdr1 : (0 : ℚ) ≤ 1 / 200 * radiusSig := by linarith
      have hinv0 := scanLoop_some_inv img target (1 / 10 * radiusSig) (4 * radiusSig)
        hdr0 (scanFuel (1 / 10 * radiusSig) 0 (4 * radiusSig)) 0 (0 + 1 / 10 * radiusSig)
        x radMin radMax le_rfl rfl h0
      have hinv1 := scanLoop_some_inv img target (1 / 200 * radiusSig) radMax
        hdr1 (scanFuel (1 / 200 * radiusSig) radMin radMax) radMin
        (radMin + 1 / 200 * radiusSig) radius a b hinv0.1 rfl h1
      refine ⟨a, hinv1.1, hinv1.2.2.2.1, ?_⟩
      rw [hinv1.2.2.1, hinv1.2.1]
      ring

end Simtools

namespace Simtools

theorem findPSFIter_some_tol (img : PSFImage) (fraction r : ℚ)
    (h : findPSFIter img fraction = some r) :
    qabs ((sumPhotonsInRadius img r : ℚ) - fraction * img.numberOfDetectedPhotons) <
      (img.numberOfDetectedPhotons : ℚ) / 1000 := by
  unfold findPSFIter at h
  exact psfLoop_tol img _ _ _ _ 100 _ _ r h

theorem findPSFIter_some_nonneg (img : PSFImage) (fraction r : ℚ)
    (htarget : 0 < fraction * img.numberOfDetectedPhotons)
    (h : findPSFIter img fraction = some r) : 0 ≤ r := by
  unfold findPSFIter at h
  refine psfLoop_nonneg img _ _ _ _ ?_ (fsqrt_nonneg _) htarget 100 _ _ r ?_ rfl h
  · have := fsqrt_nonneg ((3 / 2 * radiusSigOf img) * (3 / 2 * radiusSigOf img) /
      (sumPhotonsInRadius img (3 / 2 * radiusSigOf img) : ℚ))
    linarith
  · have := radiusSigOf_nonneg img
    linarith

theorem findPSFIter_some_ge (img : PSFImage) (fraction r : ℚ)
    (hcount : ∀ rr : ℚ,
      (sumPhotonsInRadius img rr : ℚ) ≤ fraction * img.numberOfDetectedPhotons)
    (h : findPSFIter img fraction = some r) : 3 / 2 * radiusSigOf img ≤ r := by
  unfold findPSFIter at h
  refine psfLoop_ge img _ _ _ _ ?_ (fsqrt_nonneg _) hcount 100 _ _ r ?_ rfl h
  · have := fsqrt_nonneg ((3 / 2 * radiusSigOf img) * (3 / 2 * radiusSigOf img) /
      (sumPhotonsInRadius img (3 / 2 * radiusSigOf img) : ℚ))
    linarith
  · have := radiusSigOf_nonneg img
    linarith

end Simtools

namespace Simtools

theorem qabs_lt_iff (x t : ℚ) : qabs x < t ↔ -t < x ∧ x < t := by
  unfold qabs
  split <;> rename_i hx
  · constructor
    · intro h
      constructor <;> linarith
    · intro h
      linarith [h.1]
  · constructor
    · intro h
      constructor <;> linarith [not_lt.mp hx]
    · intro h
      linarith [h.2]

theorem getPSF_cm_ok (img : PSFImage) (fraction v : ℚ) (hcache : img.storedPSF = [])
    (h : getPSF img fraction .cm = .ok v) : findPSF img fraction = .ok v := by
  unfold getPSF at h
  rw [if_neg (by simp)] at h
  rw [hcache] at h
  simp only [List.find?_nil, Option.map_none'] at h
  cases hf : findPSF img fraction with
  | ok w =>
    rw [hf] at h
    simp only [Except.map] at h
    rw [Except.ok.injEq] at h ⊢
    rw [← h]
    ring
  | error e =>
    rw [hf] at h
    simp only [Except.map] at h
    exact absurd h (by simp)

theorem findPSF_ok_cases (img : PSFImage) (fraction v : ℚ)
    (h : findPSF img fraction = .ok v) :
    (∃ r, findPSFIter img fraction = some r ∧ v = 2 * r) ∨
    (findPSFIter img fraction = none ∧
      findRadiusByScanning img (fraction * img.numberOfDetectedPhotons)
        (radiusSigOf img) = .ok v) := by
  unfold findPSF at h
  split at h
  · rename_i r hr
    rw [Except.ok.injEq] at h
    exact Or.inl ⟨r, hr, h.symm⟩
  · rename_i hnone
    exact Or.inr ⟨hnone, h⟩

end Simtools

namespace Simtools

/-- C7 (amended): for every successfully ingested photon image, whenever the
PSF solver returns a value for fraction `1.0` and a value for fraction `0.8`
(rather than failing with `PSFNotFound`), the value solved for `1.0` is at
least the value solved for `0.8`.  (The claim as stated is refuted by
`c7_monotonicity_counterexample`: the `1.0` solve can fail while the `0.8`
solve returns.) -/
theorem c7_monotonicity_amended (img : PSFImage) (v1 v08 : ℚ)
    (hing : Ingested img)
    (h1 : getPSF img 1 .cm = .ok v1)
    (h08 : getPSF img (4 / 5) .cm = .ok v08) : v08 ≤ v1 := by
  obtain ⟨hne, hlen, hN, hcx, hcy, hcache⟩ := hing
  have hNpos : 0 < img.photonPosX.length := List.length_pos.mpr hne
  have hNQ : (0 : ℚ) < (img.numberOfDetectedPhotons : ℚ) := by
    rw [hN]
    exact_mod_cast hNpos
  have hcount1 : ∀ rr : ℚ,
      (sumPhotonsInRadius img rr : ℚ) ≤ 1 * img.numberOfDetectedPhotons := by
    intro rr
    rw [one_mul, hN]
    exact_mod_cast sumPhotonsInRadius_le img hlen rr
  have h1' := getPSF_cm_ok img 1 v1 hcache h1
  have h08' := getPSF_cm_ok img (4 / 5) v08 hcache h08
  rcases findPSF_ok_cases img 1 v1 h1' with ⟨r10, hiter10, hv1⟩ | ⟨_, hscan⟩
  swap
  · rw [findRadiusByScanning_err img _ _ hcount1] at hscan
    exact absurd hscan (by simp)
  have htol10 := findPSFIter_some_tol img 1 r10 hiter10
  have hr10nn := findPSFIter_some_nonneg img 1 r10 (by rw [one_mul]; exact hNQ) hiter10
  have hr10ge := findPSFIter_some_ge img 1 r10 hcount1 hiter10
  rw [qabs_lt_iff] at htol10
  have hc10 : (sumPhotonsInRadius img r10 : ℚ) >
      (999 / 1000) * img.numberOfDetectedPhotons := by
    have := htol10.1
    nlinarith
  rcases findPSF_ok_cases img (4 / 5) v08 h08' with ⟨r08, hiter08, hv08⟩ | ⟨_, hscan08⟩
  · have htol08 := findPSFIter_some_tol img (4 / 5) r08 hiter08
    have hr08nn := findPSFIter_some_nonneg img (4 / 5) r08 (by positivity) hiter08
    rw [qabs_lt_iff] at htol08
    have hc08 : (sumPhotonsInRadius img r08 : ℚ) <
        (801 / 1000) * img.numberOfDetectedPhotons := by
      have := htol08.2
      nlinarith
    have hccQ : (sumPhotonsInRadius img r08 : ℚ) < (sumPhotonsInRadius img r10 : ℚ) := by
      nlinarith
    have hcc : sumPhotonsInRadius img r08 < sumPhotonsInRadius img r10 := by
      exact_mod_cast hccQ
    have hrr : r08 < r10 := by
      by_contra hge
      push_neg at hge
      have := sumPhotonsInRadius_mono img hr10nn hge
      omega
    rw [hv1, hv08]
    linarith
  · obtain ⟨a, hann, hacount, hv⟩ := findRadiusByScanning_ok_inv img _ _ v08
      (radiusSigOf_nonneg img) hscan08
    have haltr10 : a < r10 := by
      by_contra hge
      push_neg at hge
      have hmono := sumPhotonsInRadius_mono img hr10nn hge
      have hmonoQ : (sumPhotonsInRadius img r10 : ℚ) ≤ (sumPhotonsInRadius img a : ℚ) := by
        exact_mod_cast hmono
      nlinarith
    have hsg := radiusSigOf_nonneg img
    rw [hv1, hv]
    linarith

end Simtools

namespace Simtools

/-- C1 (amended): for every photon image and fraction, *if the damped iterative
stage of the PSF solver converges within its 100 iterations*, then it converged
at a radius `r` satisfying the round-trip tolerance
`|countWithin(r) − f·detectedPhotonCount| < detectedPhotonCount/1000`, and the
value returned by the solver is the diameter `2r`.  (At the returned value
itself, and on the scanning fallback path, the round-trip bound fails:
`c1_round_trip_counterexample`.) -/
theorem c1_round_trip_amended (img : PSFImage) (fraction r : ℚ)
    (h : findPSFIter img fraction = some r) :
    qabs ((sumPhotonsInRadius img r : ℚ) - fraction * img.numberOfDetectedPhotons) <
      (img.numberOfDetectedPhotons : ℚ) / 1000 ∧
    findPSF img fraction = .ok (2 * r) := by
  refine ⟨findPSFIter_some_tol img fraction r h, ?_⟩
  unfold findPSF
  rw [h]

theorem c1_round_trip_amended_witness :
    findPSFIter image1 1 = some (15 / 2) ∧
    (qabs ((sumPhotonsInRadius image1 (15 / 2) : ℚ) -
        1 * image1.numberOfDetectedPhotons) <
      (image1.numberOfDetectedPhotons : ℚ) / 1000 ∧
      findPSF image1 1 = .ok (2 * (15 / 2))) := by
  have h : findPSFIter image1 1 = some (15 / 2) := by with_unfolding_all decide
  exact ⟨h, c1_round_trip_amended image1 1 (15 / 2) h⟩

/-- C1 (counterexample): `image2` is a successfully ingested image and `1/2` a
containment fraction in `(0, 1]` for which the solver returns a value (the
iteration converges at a radius holding 4 of the 8 photons and returns the
doubled radius), yet the returned value contains all 8 photons, violating the
claimed tolerance `|countWithin(r) − f·N| < N/1000 = 0.008` by `4`. -/
theorem c1_round_trip_counterexample :
    Ingested image2 ∧ (0 < (1 / 2 : ℚ) ∧ (1 / 2 : ℚ) ≤ 1) ∧
    (getPSF image2 (1 / 2) .cm).isOk = true ∧
    roundTripHolds image2 (1 / 2) = false := by
  with_unfolding_all decide

/-- C7 (counterexample): for `image3` (35 photons at distance 1 from the
centroid, one outlier at distance 35) the fraction-`0.8` solve succeeds through
the scanning fallback, while the fraction-`1.0` solve fails with `PSFNotFound`:
the iteration cannot reach the outlier within 100 rounds and the scan can never
strictly exceed the full photon count.  The claimed inequality between the two
solved radii therefore has no left-hand side. -/
theorem c7_monotonicity_counterexample :
    Ingested image3 ∧ (getPSF image3 (4 / 5) .cm).isOk = true ∧
    getPSF image3 1 .cm = .error .psfNotFound := by
  with_unfolding_all decide

theorem c7_monotonicity_amended_witness :
    Ingested image1 ∧ getPSF image1 1 .cm = .ok 15 ∧
    getPSF image1 (4 / 5) .cm = .ok (401 / 80) ∧ (401 / 80 : ℚ) ≤ 15 := by
  have hi : Ingested image1 := by with_unfolding_all decide
  have h1 : getPSF image1 1 .cm = .ok 15 := by with_unfolding_all decide
  have h08 : getPSF image1 (4 / 5) .cm = .ok (401 / 80) := by with_unfolding_all decide
  exact ⟨hi, h1, h08, c7_monotonicity_amended image1 15 (401 / 80) hi h1 h08⟩

/-- C4: for every photon image constructed without a focal length, requesting
the containment radius in degree units fails at that call with
`NoFocalLengthConfigured` (the source logs an error and returns `None` before
touching the cache or the solver). -/
theorem c4_deg_without_focal_length (img : PSFImage) (fraction : ℚ)
    (h : img.hasFocalLength = false) :
    getPSF img fraction .deg = .error .noFocalLengthConfigured := by
  unfold getPSF
  rw [if_pos ⟨rfl, h⟩]

theorem c4_deg_without_focal_length_witness :
    image1.hasFocalLength = false ∧
    getPSF image1 (4 / 5) .deg = .error .noFocalLengthConfigured :=
  ⟨rfl, c4_deg_without_focal_length image1 (4 / 5) rfl⟩

end Simtools

namespace Simtools

/-- C2: contrary to the claim (and to the accessors' own docstrings, which say
the purpose of `getNeighbourPixels`/`getEdgePixels` is "to ensure the
calculation occurs only once"), neither accessor ever changes the instance:
the computed result is returned without being stored in `_neighbours` resp.
`_edgePixelIndices`, so both caches stay `None` forever and every later call
recomputes. -/
theorem c2_neighbour_and_edge_results_never_cached (camera : Camera)
    (pixelsArg : Option Pixels) (neighboursArg : Option (List (List ℕ))) :
    (getNeighbourPixels camera pixelsArg).2 = camera ∧
    (getEdgePixels camera pixelsArg neighboursArg).2 = camera := by
  constructor
  · unfold getNeighbourPixels
    split <;> rfl
  · unfold getEdgePixels
    split <;> rfl

/-- C3: the field-of-view computation fails with `EmptyEdgeSet` (the source's
`ZeroDivisionError` at the division by the number of edge pixels) exactly when
the edge set is empty, and returns normally exactly when it is not. -/
theorem c3_fov_empty_edge_set (xPixel yPixel : List ℚ) (edgePixelIndices : List ℕ)
    (focalLength : ℚ) (atanDeg : ℚ → ℚ) :
    (calcFOV xPixel yPixel edgePixelIndices focalLength atanDeg =
        .error .emptyEdgeSet ↔ edgePixelIndices = []) ∧
    ((calcFOV xPixel yPixel edgePixelIndices focalLength atanDeg).isOk = true ↔
      edgePixelIndices ≠ []) := by
  unfold calcFOV
  by_cases h : edgePixelIndices.length = 0
  · rw [if_pos h]
    rw [List.length_eq_zero] at h
    simp [h, Except.isOk, Except.toBool]
  · rw [if_neg h]
    have hne : edgePixelIndices ≠ [] := by
      intro he
      exact h (by rw [he]; rfl)
    simp [hne, Except.isOk, Except.toBool]

theorem c3_fov_empty_edge_set_witness :
    (calcFOV [1] [1] [] 2 (fun q => q) = .error .emptyEdgeSet) ∧
    (calcFOV [1] [1] [0] 2 (fun q => q)).isOk = true := by
  constructor
  · exact (c3_fov_empty_edge_set [1] [1] [] 2 (fun q => q)).1.mpr rfl
  · exact (c3_fov_empty_edge_set [1] [1] [0] 2 (fun q => q)).2.mpr (by simp)

/-- C9: during photon ingestion, a line that does not contain the annotation
phrase but contains `'#'` anywhere (in any position, not only as a leading
comment marker) is skipped entirely: the image state is returned unchanged, so
the line contributes no photon position. -/
theorem c9_hash_line_skipped (img : PSFImage) (line : List Char)
    (hphrase : containsSeq fallingPhrase line = false) (hhash : '#' ∈ line) :
    processSimtelLine img line = .ok img := by
  unfold processSimtelLine
  rw [hphrase]
  simp [hhash]

theorem c9_hash_line_skipped_witness :
    containsSeq fallingPhrase ("1 2 3.5 4.5#comment".data) = false ∧
    '#' ∈ ("1 2 3.5 4.5#comment".data) ∧
    processSimtelLine image1 ("1 2 3.5 4.5#comment".data) = .ok image1 := by
  have h1 : containsSeq fallingPhrase ("1 2 3.5 4.5#comment".data) = false := by
    with_unfolding_all decide
  have h2 : '#' ∈ ("1 2 3.5 4.5#comment".data) := by decide
  exact ⟨h1, h2, c9_hash_line_skipped image1 _ h1 h2⟩

end Simtools

namespace Simtools

/-- C8: when every line of the source is processed without a parse failure,
photon ingestion fails with `EmptyOrMismatchedPhotonData` exactly when the
resulting x/y photon position sequences are empty or of unequal length (the
check of `_isPhotonPositionsOK` over the state left by the parsing pass). -/
theorem c8_empty_or_mismatched_iff (img0 : PSFImage) (lines : List (List Char))
    (img' : PSFImage)
    (h : processLines { img0 with totalPhotons := 0 } lines = .ok img') :
    (readSimtelLines img0 lines = .error .emptyOrMismatchedPhotonData ↔
      (img'.photonPosX = [] ∨ img'.photonPosY = [] ∨
        img'.photonPosX.length ≠ img'.photonPosY.length)) := by
  have hbool : isPhotonPositionsOK img' = true ↔
      ¬(img'.photonPosX = [] ∨ img'.photonPosY = [] ∨
        img'.photonPosX.length ≠ img'.photonPosY.length) := by
    unfold isPhotonPositionsOK
    simp only [Bool.and_eq_true, decide_eq_true_eq, ← List.length_eq_zero]
    push_neg
    constructor
    · intro hx
      exact ⟨hx.1.1, hx.1.2, hx.2⟩
    · intro hx
      exact ⟨⟨hx.1, hx.2.1⟩, hx.2.2⟩
  unfold readSimtelLines
  rw [h]
  dsimp only
  split <;> rename_i hok
  · exact iff_of_false (by simp) (hbool.mp hok)
  · refine iff_of_true rfl ?_
    by_contra hcon
    exact hok (hbool.mpr hcon)

theorem c8_empty_or_mismatched_iff_witness :
    readSimtelLines mismatchedImage [] = .error .emptyOrMismatchedPhotonData :=
  (c8_empty_or_mismatched_iff mismatchedImage [] _ rfl).mpr
    (by with_unfolding_all decide)

theorem foldlPixelDiameterSentinel : ∀ (lines : List CfgLine) (p : Pixels),
    (∀ l ∈ lines, cfgDiameterIs9999 l) → p.pixelDiameter = 9999 →
    (lines.foldl processPixelLine p).pixelDiameter = 9999
  | [], _, _, hp => hp
  | l :: ls, p, h, hp => by
    rw [List.foldl_cons]
    apply foldlPixelDiameterSentinel ls _ fun x hx => h x (List.mem_cons_of_mem l hx)
    cases l with
    | pixType s d af wf =>
      have hd := h _ (List.mem_cons_self _ _)
      unfold cfgDiameterIs9999 at hd
      simpa [processPixelLine] using hd
    | rotateLine a => simpa [processPixelLine] using hp
    | pixel id x y onFlag => simpa [processPixelLine] using hp
    | other => simpa [processPixelLine] using hp

/-- C10: layout parsing uses `9999` as the internal "unset" sentinel for the
pixel diameter, so a source whose `PixType` records all declare a diameter of
exactly `9999` (in particular, a single such record) is rejected with the
missing-diameter `MalformedLayout` error, exactly as when no diameter record
was supplied at all. -/
theorem c10_diameter_sentinel_9999 (lines : List CfgLine)
    (h : ∀ l ∈ lines, cfgDiameterIs9999 l) :
    readPixelList lines = .error .malformedLayoutDiameter := by
  unfold readPixelList
  rw [if_pos (foldlPixelDiameterSentinel lines initPixels h rfl)]

theorem c10_diameter_sentinel_9999_witness :
    readPixelList [CfgLine.pixType 1 9999 ("funnel.dat".data) none,
      CfgLine.pixel 1 0 0 none] = .error .malformedLayoutDiameter :=
  c10_diameter_sentinel_9999 _ (by decide)

/-- C5: for a layout with hexagonal pixel shape (code 1 or 3), nonnegative
diameter and equal-length coordinate lists, the computed neighbour set of a
pixel `i` is exactly the set of pixel indices `j ≠ i` whose squared Euclidean
distance from pixel `i` is at most `(1.1 × pixel diameter)²` (equivalently,
whose distance is at most `1.1 × diameter`); in particular it never contains
`i` itself. -/
theorem c5_hex_neighbour_characterisation (pixels : Pixels) (i j : ℕ)
    (hshape : pixels.pixelShape = 1 ∨ pixels.pixelShape = 3)
    (hlen : pixels.x.length = pixels.y.length)
    (hdiam : 0 ≤ pixels.pixelDiameter)
    (hi : i < pixels.x.length) :
    j ∈ (calcNeighbourPixels pixels).getD i [] ↔
      (j < pixels.x.length ∧ j ≠ i ∧
        (pixels.x.getD j 0 - pixels.x.getD i 0) ^ 2 +
          (pixels.y.getD j 0 - pixels.y.getD i 0) ^ 2 ≤
          (11 / 10 * pixels.pixelDiameter) ^ 2) := by
  unfold calcNeighbourPixels
  rw [if_pos hshape]
  unfold findNeighbours pmtNeighborRadiusFactor
  rw [List.getD_eq_getElem?_getD, List.getElem?_map, List.getElem?_range hi]
  simp only [Option.map_some', Option.getD_some, List.mem_filter, List.mem_range,
    decide_eq_true_eq]

theorem c5_hex_neighbour_characterisation_witness :
    (pixels3.pixelShape = 1 ∨ pixels3.pixelShape = 3) ∧
    1 ∈ (calcNeighbourPixels pixels3).getD 0 [] ∧
    2 ∈ (calcNeighbourPixels pixels3).getD 0 [] := by
  refine ⟨Or.inl rfl, ?_, ?_⟩
  · exact (c5_hex_neighbour_characterisation pixels3 0 1 (Or.inl rfl) rfl
      (by norm_num [pixels3, initPixels]) (by norm_num [pixels3, initPixels])).mpr
      (by with_unfolding_all decide)
  · exact (c5_hex_neighbour_characterisation pixels3 0 2 (Or.inl rfl) rfl
      (by norm_num [pixels3, initPixels]) (by norm_num [pixels3, initPixels])).mpr
      (by with_unfolding_all decide)

/-- C6: for a layout with a recognised shape code, a pixel index is in the
computed edge set iff it is in range, its pixel is on, and its neighbour count
is strictly below the shape's full complement (6 for the hexagonal shapes 1
and 3, 4 for the square shape 2); in particular, off pixels are never edge
pixels. -/
theorem c6_edge_pixel_characterisation (pixels : Pixels)
    (neighbours : List (List ℕ)) (iPix : ℕ)
    (hshape : pixels.pixelShape = 1 ∨ pixels.pixelShape = 2 ∨ pixels.pixelShape = 3) :
    iPix ∈ calcEdgePixels pixels neighbours ↔
      (iPix < min pixels.x.length pixels.y.length ∧
        pixels.pixOn.getD iPix false = true ∧
        (neighbours.getD iPix []).length <
          (if pixels.pixelShape = 2 then 4 else 6)) := by
  unfold calcEdgePixels
  rcases hshape with h | h | h <;>
    simp only [List.mem_filter, List.mem_range, h, decide_eq_true_eq] <;>
    norm_num

theorem c6_edge_pixel_characterisation_witness :
    (pixels3.pixelShape = 1 ∨ pixels3.pixelShape = 2 ∨ pixels3.pixelShape = 3) ∧
    0 ∈ calcEdgePixels pixels3 (calcNeighbourPixels pixels3) := by
  refine ⟨Or.inl rfl, ?_⟩
  exact (c6_edge_pixel_characterisation pixels3 (calcNeighbourPixels pixels3) 0
    (Or.inl rfl)).mpr (by with_unfolding_all decide)

end Simtools
